import Mathlib

/-!
Verification development for the tree-detection backend
(python_backend/tree_detector_core.py and python_backend/main.py).

The Python core is shallowly embedded over exact rational arithmetic:
Python floats are idealized as rationals, the float constant math.pi is
embedded as the exact rational value of the IEEE-754 double it denotes,
and Python round(x, 2) is embedded as exact half-even rounding at two
decimal places.  Calls into external libraries (OpenCV, numpy) are
embedded by their documented semantics; region extraction
(cv2.findContours) is a library call and is modelled by passing the
extracted contour list as an explicit argument to the detection loop,
which is translated line by line from the source.
-/

set_option allowUnsafeReducibility true

attribute [local semireducible] Rat.add Rat.sub Rat.mul Rat.inv Rat.ofScientific

namespace TreeDetect

/-- Truncation of a rational toward zero, the behaviour of Python int()
on a float value. -/
def truncQ (q : ℚ) : ℤ := q.num.tdiv (q.den : ℤ)

/-- Linear search step for the integer square root: starting from a
base k with k * k ≤ n, advance while the next square still fits,
within the given fuel. -/
def isqrtUp (n : ℕ) : ℕ → ℕ → ℕ
  | k, 0 => k
  | k, f + 1 => if (k + 1) * (k + 1) ≤ n then isqrtUp n (k + 1) f else k

/-- Integer square root: the largest k with k * k ≤ n, computed by
structural recursion so that concrete instances reduce. -/
def isqrt (n : ℕ) : ℕ := isqrtUp n 0 (n + 1)

theorem isqrtUp_spec (n : ℕ) : ∀ f k, k * k ≤ n → n < (k + f) * (k + f) →
    (isqrtUp n k f) * (isqrtUp n k f) ≤ n ∧
      n < (isqrtUp n k f + 1) * (isqrtUp n k f + 1) := by
  intro f
  induction f with
  | zero => intro k hk hlt; simp at hlt; omega
  | succ f ih =>
    intro k hk hlt
    by_cases h : (k + 1) * (k + 1) ≤ n
    · have heq : k + 1 + f = k + (f + 1) := by omega
      have := ih (k + 1) h (by rw [heq]; exact hlt)
      simpa [isqrtUp, h] using this
    · simp only [isqrtUp, if_neg h]
      omega

/-- isqrt n is the integer floor of the real square root of n. -/
theorem isqrt_spec (n : ℕ) :
    isqrt n * isqrt n ≤ n ∧ n < (isqrt n + 1) * (isqrt n + 1) := by
  have := isqrtUp_spec n (n + 1) 0 (by omega) (by nlinarith)
  simpa [isqrt] using this

/-- Round a rational to the nearest integer, ties to even: the rounding
rule of Python round() on an exactly represented value. -/
def roundHalfEven (q : ℚ) : ℤ :=
  let f : ℤ := ⌊q⌋
  let r : ℚ := q - (f : ℚ)
  if r < 1/2 then f
  else if 1/2 < r then f + 1
  else if f % 2 = 0 then f else f + 1

/-- Embedding of Python round(x, 2): half-even rounding at two decimal
places, over exact rationals. -/
def round2 (q : ℚ) : ℚ := (roundHalfEven (100 * q) : ℚ) / 100

/-- Round a rational to the nearest integer, ties upward (used by the
idealized 8-bit color conversion). -/
def roundHalfUp (q : ℚ) : ℤ := ⌊q + 1/2⌋

/-- Exact rational value of the IEEE-754 double math.pi
(3.141592653589793...), the constant the Python source computes with. -/
def mathPi : ℚ := 884279719003555 / 281474976710656

/-- Half-even rounding of the real square root of a nonnegative
rational, computed exactly through integer square roots.  For v with
0 ≤ v this equals roundHalfEven applied to the real number sqrt v. -/
def roundHalfEvenSqrt (v : ℚ) : ℤ :=
  let n : ℕ := isqrt (Int.toNat ⌊v⌋)
  let mid : ℚ := ((n : ℚ) + 1/2) ^ 2
  if v < mid then (n : ℤ)
  else if mid < v then (n : ℤ) + 1
  else if n % 2 = 0 then (n : ℤ) else (n : ℤ) + 1

/-- Embedding of round(math.sqrt u, 2) for a nonnegative rational u:
two-decimal half-even rounding of the real square root. -/
def round2OfSqrt (u : ℚ) : ℚ := (roundHalfEvenSqrt (10000 * u) : ℚ) / 100

/-- Decides c ≤ sqrt u for 0 ≤ u, without leaving the rationals. -/
def leSqrtB (c u : ℚ) : Bool := decide (c ≤ 0 ∨ c ^ 2 ≤ u)

/-- Decides sqrt u ≤ c for 0 ≤ u, without leaving the rationals. -/
def sqrtLeB (u c : ℚ) : Bool := decide (0 ≤ c ∧ u ≤ c ^ 2)

/-- Cyclically adjacent vertex pairs of a polygon: the directed edge
list (p0,p1), (p1,p2), ..., (plast,p0). -/
def cyclicPairs (c : List (ℤ × ℤ)) : List ((ℤ × ℤ) × (ℤ × ℤ)) :=
  match c with
  | [] => []
  | p :: ps => c.zip (ps ++ [p])

/-- Twice the signed (shoelace) area of a pixel polygon. -/
def shoelace (c : List (ℤ × ℤ)) : ℤ :=
  (cyclicPairs c).foldl (fun a e => a + (e.1.1 * e.2.2 - e.2.1 * e.1.2)) 0

/-- Embedding of cv2.contourArea: absolute polygon area by the shoelace
formula. -/
def contourArea (c : List (ℤ × ℤ)) : ℚ := ((shoelace c).natAbs : ℚ) / 2

/-- Spatial moments of a contour, as cv2.moments computes them for a
polygon input. -/
structure Moments where
  m00 : ℚ
  m10 : ℚ
  m01 : ℚ
deriving DecidableEq, Repr

/-- Embedding of cv2.moments on a contour: Green-theorem accumulation
of the polygon moments, sign-normalized so that m00 is the absolute
area. -/
def contourMoments (c : List (ℤ × ℤ)) : Moments :=
  let a00 : ℤ := shoelace c
  let a10 : ℤ :=
    (cyclicPairs c).foldl
      (fun a e => a + (e.1.1 * e.2.2 - e.2.1 * e.1.2) * (e.1.1 + e.2.1)) 0
  let a01 : ℤ :=
    (cyclicPairs c).foldl
      (fun a e => a + (e.1.1 * e.2.2 - e.2.1 * e.1.2) * (e.1.2 + e.2.2)) 0
  if a00 < 0 then ⟨-(a00 : ℚ) / 2, -(a10 : ℚ) / 6, -(a01 : ℚ) / 6⟩
  else ⟨(a00 : ℚ) / 2, (a10 : ℚ) / 6, (a01 : ℚ) / 6⟩

/-- Axis-aligned bounding rectangle, in the cv2.boundingRect
convention: x, y are the minimal coordinates, w, h the inclusive
extents plus one. -/
structure Rect where
  x : ℤ
  y : ℤ
  w : ℤ
  h : ℤ
deriving DecidableEq, Repr

/-- Embedding of cv2.boundingRect on a contour. -/
def boundingRect (c : List (ℤ × ℤ)) : Rect :=
  match c with
  | [] => ⟨0, 0, 0, 0⟩
  | p :: ps =>
    let xmin := ps.foldl (fun a q => min a q.1) p.1
    let xmax := ps.foldl (fun a q => max a q.1) p.1
    let ymin := ps.foldl (fun a q => min a q.2) p.2
    let ymax := ps.foldl (fun a q => max a q.2) p.2
    ⟨xmin, ymin, xmax - xmin + 1, ymax - ymin + 1⟩

/-- Skip condition of one edge in the cv2.pointPolygonTest crossing
scan: the edge is entirely above, entirely below, or entirely to the
left of the query point. -/
def pptSkip (pt v0 v1 : ℤ × ℤ) : Bool :=
  (v0.2 ≤ pt.2 && v1.2 ≤ pt.2) || (pt.2 < v0.2 && pt.2 < v1.2) ||
  (v0.1 < pt.1 && v1.1 < pt.1)

/-- Cross product used by cv2.pointPolygonTest to locate the query
point relative to one directed edge. -/
def pptDist (pt v0 v1 : ℤ × ℤ) : ℤ :=
  (pt.2 - v0.2) * (v1.1 - v0.1) - (pt.1 - v0.1) * (v1.2 - v0.2)

/-- True when the cv2.pointPolygonTest edge scan reports the query
point as lying on this edge. -/
def pptOnEdge (pt v0 v1 : ℤ × ℤ) : Bool :=
  if pptSkip pt v0 v1 then
    pt.2 = v1.2 &&
      (pt.1 = v1.1 ||
        (pt.2 = v0.2 &&
          ((v0.1 ≤ pt.1 && pt.1 ≤ v1.1) || (v1.1 ≤ pt.1 && pt.1 ≤ v0.1))))
  else pptDist pt v0 v1 = 0

/-- True when this edge contributes a ray crossing in the
cv2.pointPolygonTest scan. -/
def pptCross (pt v0 v1 : ℤ × ℤ) : Bool :=
  if pptSkip pt v0 v1 then false
  else
    let d := pptDist pt v0 v1
    let d' := if v1.2 < v0.2 then -d else d
    decide (0 < d')

/-- Embedding of cv2.pointPolygonTest with measureDist = False:
returns 1 for interior points, 0 for boundary points, -1 for exterior
points. -/
def pointPolygonTest (c : List (ℤ × ℤ)) (pt : ℤ × ℤ) : ℤ :=
  let edges := cyclicPairs c
  if edges.any (fun e => pptOnEdge pt e.1 e.2) then 0
  else if (edges.countP (fun e => pptCross pt e.1 e.2)) % 2 = 1 then 1
  else -1

/-- Inclusive threshold range for one HSV channel. -/
structure ChannelRange where
  lo : ℕ
  hi : ℕ
deriving DecidableEq, Repr

/-- The hsv_thresholds argument of detect_trees_in_image: one inclusive
range per channel. -/
structure HsvThresholds where
  hue : ChannelRange
  sat : ChannelRange
  val : ChannelRange
deriving DecidableEq, Repr

/-- One pixel of the BGR input image, 8-bit channels. -/
structure Bgr where
  b : ℕ
  g : ℕ
  r : ℕ
deriving DecidableEq, Repr

/-- One pixel in HSV representation, 8-bit OpenCV ranges
(hue 0..179, saturation and value 0..255). -/
structure Hsv where
  h : ℕ
  s : ℕ
  v : ℕ
deriving DecidableEq, Repr

/-- Embedding of cv2.cvtColor with COLOR_BGR2HSV on 8-bit data: the
standard RGB to HSV transform, value as the channel maximum,
saturation scaled to 0..255, hue halved into 0..179 (integer rounding
idealized as round-half-up). -/
def bgrToHsv (p : Bgr) : Hsv :=
  let v : ℕ := max p.r (max p.g p.b)
  let m : ℕ := min p.r (min p.g p.b)
  let diff : ℕ := v - m
  let s : ℕ := if v = 0 then 0 else (roundHalfUp ((255 * diff : ℚ) / v)).toNat
  let hdeg : ℚ :=
    if diff = 0 then 0
    else if v = p.r then (60 * ((p.g : ℚ) - (p.b : ℚ))) / diff
    else if v = p.g then 120 + (60 * ((p.b : ℚ) - (p.r : ℚ))) / diff
    else 240 + (60 * ((p.r : ℚ) - (p.g : ℚ))) / diff
  let hpos : ℚ := if hdeg < 0 then hdeg + 360 else hdeg
  ⟨(roundHalfUp (hpos / 2)).toNat, s, v⟩

/-- Embedding of cv2.inRange on one HSV pixel: every channel inside its
inclusive bounds. -/
def inHsvRange (t : HsvThresholds) (p : Hsv) : Bool :=
  decide (t.hue.lo ≤ p.h ∧ p.h ≤ t.hue.hi) &&
  decide (t.sat.lo ≤ p.s ∧ p.s ≤ t.sat.hi) &&
  decide (t.val.lo ≤ p.v ∧ p.v ≤ t.val.hi)

/-- The binary vegetation mask of tree_detector_core lines 52 to 65:
convert the pixel to HSV and test it against the inclusive channel
bounds.  The image is a pixel function; the mask is pointwise. -/
def hsvMask (img : ℤ → ℤ → Bgr) (t : HsvThresholds) (xp yp : ℤ) : Bool :=
  inHsvRange t (bgrToHsv (img xp yp))

/-- Explicit state of the numpy random generator: an abstract stream of
integer draws, a stream of unit-interval draws, and a position.  The
Python source does not take such a state as an argument; it reads the
ambient module-global np.random, which this embedding makes explicit. -/
structure RandState where
  gen : ℕ → ℕ
  fgen : ℕ → ℚ
  idx : ℕ

/-- Embedding of np.random.randint(lo, hi): a draw from the integer
interval [lo, hi).  Defined only for lo < hi (numpy raises otherwise);
the stream value is reduced into the interval. -/
def randint (lo hi : ℤ) (s : RandState) : ℤ × RandState :=
  (if lo < hi then lo + (s.gen s.idx : ℤ) % (hi - lo) else lo,
   ⟨s.gen, s.fgen, s.idx + 1⟩)

/-- Embedding of np.random.uniform(lo, hi): lo plus a unit-interval
draw scaled to the interval width. -/
def uniformR (lo hi : ℚ) (s : RandState) : ℚ × RandState :=
  (lo + s.fgen s.idx * (hi - lo), ⟨s.gen, s.fgen, s.idx + 1⟩)

/-- One synthesized tree inside a cluster, as populate_cluster records
it: integer pixel position, rounded metric position, rounded sampled
diameter. -/
structure PopTree where
  positionPx : ℤ × ℤ
  positionM : ℚ × ℚ
  estimatedDiameterM : ℚ
deriving DecidableEq, Repr

/-- The spacing rejection test of populate_cluster: some already
accepted tree lies at euclidean pixel distance below minSpacingPx.
The source compares math.sqrt of the squared distance against
minSpacingPx; since the square root is nonnegative, that comparison
holds exactly when minSpacingPx is positive and the squared distance
is below its square, which is the rational form used here. -/
def tooClose (acc : List PopTree) (tx ty : ℤ) (minSpacingPx : ℚ) : Bool :=
  acc.any (fun t =>
    decide (0 < minSpacingPx ∧
      ((tx - t.positionPx.1 : ℚ) ^ 2 + (ty - t.positionPx.2 : ℚ) ^ 2
        < minSpacingPx ^ 2)))

/-- The rejection-sampling loop of populate_cluster (source lines 219
to 256), with the loop bound max_attempts as structural fuel.  Returns
the accepted trees in acceptance order, the number of attempts
consumed, and the final generator state. -/
def populateLoop (contour : List (ℤ × ℤ)) (bb : Rect) (target : ℕ)
    (minSpacingPx minD maxD mppx mppy : ℚ) (height : ℤ) :
    ℕ → List PopTree → RandState → List PopTree × ℕ × RandState
  | 0, acc, s => (acc, 0, s)
  | fuel + 1, acc, s =>
    if target ≤ acc.length then (acc, 0, s)
    else
      let r1 := randint bb.x (bb.x + bb.w) s
      let r2 := randint bb.y (bb.y + bb.h) r1.2
      let tx := r1.1
      let ty := r2.1
      if pointPolygonTest contour (tx, ty) < 0 then
        let rest := populateLoop contour bb target minSpacingPx minD maxD
          mppx mppy height fuel acc r2.2
        (rest.1, rest.2.1 + 1, rest.2.2)
      else if tooClose acc tx ty minSpacingPx then
        let rest := populateLoop contour bb target minSpacingPx minD maxD
          mppx mppy height fuel acc r2.2
        (rest.1, rest.2.1 + 1, rest.2.2)
      else
        let tyFlipped := height - ty
        let rd := uniformR minD maxD r2.2
        let tree : PopTree :=
          ⟨(tx, ty),
           (round2 ((tx : ℚ) * mppx), round2 ((tyFlipped : ℚ) * mppy)),
           round2 rd.1⟩
        let rest := populateLoop contour bb target minSpacingPx minD maxD
          mppx mppy height fuel (acc ++ [tree]) rd.2
        (rest.1, rest.2.1 + 1, rest.2.2)

/-- Embedding of populate_cluster (source lines 179 to 258).  The
generator state is an explicit argument here; in the Python source the
corresponding state is the ambient global np.random.  Returns the tree
list together with the attempts counter of the source loop and the
final generator state. -/
def populate_cluster (contour : List (ℤ × ℤ)) (area_m2 : ℚ)
    (meters_per_pixel_x meters_per_pixel_y min_diameter max_diameter : ℚ)
    (height : ℤ) (s : RandState) : List PopTree × ℕ × RandState :=
  let bb := boundingRect contour
  let avg_tree_diameter := (min_diameter + max_diameter) / 2
  let avg_tree_area := mathPi * (avg_tree_diameter / 2) ^ 2
  let estimated_tree_count : ℕ := (max 1 (truncQ (area_m2 / avg_tree_area))).toNat
  let min_spacing_m := min_diameter
  let avg_meters_per_pixel := (meters_per_pixel_x + meters_per_pixel_y) / 2
  let min_spacing_px := min_spacing_m / avg_meters_per_pixel
  populateLoop contour bb estimated_tree_count min_spacing_px
    min_diameter max_diameter meters_per_pixel_x meters_per_pixel_y height
    (estimated_tree_count * 10) [] s

/-- The detection_params argument: diameter bounds and cluster
threshold, meters. -/
structure DetectionParams where
  min_diameter : ℚ
  max_diameter : ℚ
  cluster_threshold : ℚ
deriving DecidableEq, Repr

/-- The real_dimensions argument: physical footprint of the image,
meters. -/
structure RealDimensions where
  width : ℚ
  height : ℚ
deriving DecidableEq, Repr

/-- An entry of the individual_trees result list. -/
structure IndividualTree where
  centroidPx : ℤ × ℤ
  centroidM : ℚ × ℚ
  areaM2 : ℚ
  estimatedDiameterM : ℚ
  polygonPx : List (ℤ × ℤ)
  polygonM : List (ℚ × ℚ)
deriving DecidableEq, Repr

/-- An entry of the tree_clusters result list. -/
structure TreeCluster where
  areaM2 : ℚ
  centroidPx : ℤ × ℤ
  centroidM : ℚ × ℚ
  polygonPx : List (ℤ × ℤ)
  polygonM : List (ℚ × ℚ)
  populatedTrees : List PopTree
deriving DecidableEq, Repr

/-- The summary block of the detection result. -/
structure Summary where
  individualTreesCount : ℕ
  treeClustersCount : ℕ
  totalPopulatedTrees : ℕ
deriving DecidableEq, Repr

/-- The detection result assembled at the end of detect_trees_in_image.
The metadata block of the source echoes inputs and a wall-clock
timestamp; the echoed inputs are recoverable from the call arguments
and the timestamp is outside the embedding, so the result carries the
two content lists and the summary. -/
structure DetectionResult where
  summary : Summary
  individualTrees : List IndividualTree
  treeClusters : List TreeCluster
deriving DecidableEq, Repr

/-- Processing of one contour by the loop body of
detect_trees_in_image (source lines 84 to 151): noise filter,
zero-mass filter, centroid truncation, metric conversion with the
vertical flip, then classification as cluster or individual tree.
Returns the classified entry, if any, and the generator state after
any cluster population.  The diameter bound check is decided through
leSqrtB and sqrtLeB, which agree with the source exactly when the
radicand is nonnegative; on a negative radicand (one negative scale
factor) the Python math.sqrt raises ValueError instead, so statements
about the individual-tree branch carry a nonnegativity hypothesis on
the scale-factor product. -/
def processContour (params : DetectionParams)
    (meters_per_pixel_x meters_per_pixel_y : ℚ) (height : ℤ)
    (min_area_pixels cluster_area_m2 : ℚ) (contour : List (ℤ × ℤ))
    (s : RandState) : Option (IndividualTree ⊕ TreeCluster) × RandState :=
  let area_pixels := contourArea contour
  if area_pixels < min_area_pixels then (none, s)
  else
    let M := contourMoments contour
    if M.m00 = 0 then (none, s)
    else
      let area_m2 := area_pixels * meters_per_pixel_x * meters_per_pixel_y
      let cx_px : ℤ := truncQ (M.m10 / M.m00)
      let cy_px : ℤ := truncQ (M.m01 / M.m00)
      let cy_px_flipped : ℤ := height - cy_px
      let cx_m : ℚ := (cx_px : ℚ) * meters_per_pixel_x
      let cy_m : ℚ := (cy_px_flipped : ℚ) * meters_per_pixel_y
      let polygon_px := contour
      let polygon_m : List (ℚ × ℚ) := polygon_px.map (fun p =>
        (round2 ((p.1 : ℚ) * meters_per_pixel_x),
         round2 (((height - p.2 : ℤ) : ℚ) * meters_per_pixel_y)))
      if cluster_area_m2 < area_m2 then
        let pc := populate_cluster contour area_m2 meters_per_pixel_x
          meters_per_pixel_y params.min_diameter params.max_diameter height s
        (some (Sum.inr
          { areaM2 := round2 area_m2
            centroidPx := (cx_px, cy_px)
            centroidM := (round2 cx_m, round2 cy_m)
            polygonPx := polygon_px
            polygonM := polygon_m
            populatedTrees := pc.1 }), pc.2.2)
      else
        let diamSq := 4 * (area_m2 / mathPi)
        if leSqrtB params.min_diameter diamSq && sqrtLeB diamSq params.max_diameter then
          (some (Sum.inl
            { centroidPx := (cx_px, cy_px)
              centroidM := (round2 cx_m, round2 cy_m)
              areaM2 := round2 area_m2
              estimatedDiameterM := round2OfSqrt diamSq
              polygonPx := polygon_px
              polygonM := polygon_m }), s)
        else (none, s)

/-- The contour loop of detect_trees_in_image, threading the generator
state through successive cluster populations and keeping both result
lists in source order. -/
def detectLoop (params : DetectionParams)
    (meters_per_pixel_x meters_per_pixel_y : ℚ) (height : ℤ)
    (min_area_pixels cluster_area_m2 : ℚ) :
    List (List (ℤ × ℤ)) → RandState →
      List IndividualTree × List TreeCluster × RandState
  | [], s => ([], [], s)
  | contour :: rest, s =>
    let step := processContour params meters_per_pixel_x meters_per_pixel_y
      height min_area_pixels cluster_area_m2 contour s
    let r := detectLoop params meters_per_pixel_x meters_per_pixel_y height
      min_area_pixels cluster_area_m2 rest step.2
    match step.1 with
    | none => r
    | some (Sum.inl t) => (t :: r.1, r.2.1, r.2.2)
    | some (Sum.inr cl) => (r.1, cl :: r.2.1, r.2.2)

/-- Embedding of detect_trees_in_image (source lines 13 to 176).  The
image enters through its pixel dimensions and the contour list that
cv2.findContours extracts from the HSV mask; the mask itself is
embedded separately as hsvMask, and contour extraction is an external
library call, so the contour list is an explicit argument.  Everything
from the scale factors on is translated line by line.  The embedding
is total where the source can raise: with a zero scale-factor product
the Python minimum-area division raises ZeroDivisionError, while
rational division returns zero here, so statements about that
exceptional parameter region must carry hypotheses excluding it. -/
def detect_trees_in_image (width height : ℤ)
    (contours : List (List (ℤ × ℤ))) (params : DetectionParams)
    (real_dimensions : RealDimensions) (s : RandState) : DetectionResult :=
  let meters_per_pixel_x := real_dimensions.width / (width : ℚ)
  let meters_per_pixel_y := real_dimensions.height / (height : ℚ)
  let min_radius_m := params.min_diameter / 2
  let min_area_m2 := mathPi * min_radius_m ^ 2
  let min_area_pixels := min_area_m2 / (meters_per_pixel_x * meters_per_pixel_y)
  let cluster_radius_m := params.cluster_threshold / 2
  let cluster_area_m2 := mathPi * cluster_radius_m ^ 2
  let r := detectLoop params meters_per_pixel_x meters_per_pixel_y height
    min_area_pixels cluster_area_m2 contours s
  { summary :=
      { individualTreesCount := r.1.length
        treeClustersCount := r.2.1.length
        totalPopulatedTrees := (r.2.1.map (fun cl => cl.populatedTrees.length)).sum }
    individualTrees := r.1
    treeClusters := r.2.1 }

/-- Response of the detect-trees endpoint of main.py: either a JSON
detection result or an HTTP error with a status code. -/
inductive DetectResponse where
  | ok (result : DetectionResult)
  | httpError (status : ℕ) (detail : String)
deriving DecidableEq, Repr

/-- Whether an endpoint response is a success. -/
def DetectResponse.isOk : DetectResponse → Bool
  | .ok _ => true
  | .httpError _ _ => false

/-- Embedding of the detect_trees endpoint of main.py (lines 66 to
150).  Image decoding (cv2.imdecode) is a library call modelled by an
Option: none embeds a buffer that fails to decode.  The endpoint
performs no other input validation: every decodable image proceeds
straight into detect_trees_in_image regardless of the numeric
parameters.  In the source, an exception raised inside the core (for
example the divisions by zero or the negative square root noted on
detect_trees_in_image and processContour) is caught and returned as
an HTTP 500 internal error; this embedding keeps the core total, so
it models the endpoint only on the non-raising parameter region, and
theorems about it restrict their hypotheses accordingly. -/
def detect_trees (decoded : Option (ℤ × ℤ × List (List (ℤ × ℤ))))
    (params : DetectionParams) (real_dimensions : RealDimensions)
    (s : RandState) : DetectResponse :=
  match decoded with
  | none => .httpError 400
      "Failed to decode image. Please ensure the file is a valid image format (PNG, JPG, etc.)"
  | some img =>
    .ok (detect_trees_in_image img.1 img.2.1 img.2.2 params real_dimensions s)

theorem populateLoop_length_le (contour : List (ℤ × ℤ)) (bb : Rect)
    (target : ℕ) (msp minD maxD mx my : ℚ) (height : ℤ) :
    ∀ fuel acc s,
      (populateLoop contour bb target msp minD maxD mx my height
        fuel acc s).1.length ≤ max target acc.length := by
  intro fuel
  induction fuel with
  | zero => intro acc s; simp [populateLoop]
  | succ fuel ih =>
    intro acc s
    rw [populateLoop]
    split
    · simp
    · rename_i hlt
      dsimp only
      split
      · exact ih acc _
      · split
        · exact ih acc _
        · refine le_trans (ih _ _) ?_
          simp only [List.length_append, List.length_singleton]
          omega

theorem populateLoop_attempts_le (contour : List (ℤ × ℤ)) (bb : Rect)
    (target : ℕ) (msp minD maxD mx my : ℚ) (height : ℤ) :
    ∀ fuel acc s,
      (populateLoop contour bb target msp minD maxD mx my height
        fuel acc s).2.1 ≤ fuel := by
  intro fuel
  induction fuel with
  | zero => intro acc s; simp [populateLoop]
  | succ fuel ih =>
    intro acc s
    rw [populateLoop]
    split
    · simp
    · dsimp only
      split
      · simpa using Nat.succ_le_succ (ih acc _)
      · split
        · simpa using Nat.succ_le_succ (ih acc _)
        · simpa using Nat.succ_le_succ (ih _ _)

theorem populateLoop_inv (contour : List (ℤ × ℤ)) (bb : Rect)
    (target : ℕ) (msp minD maxD mx my : ℚ) (height : ℤ) (hmsp : 0 < msp) :
    ∀ fuel acc s,
      (∀ t ∈ acc, 0 ≤ pointPolygonTest contour t.positionPx) →
      acc.Pairwise (fun a b => msp ^ 2 ≤
        ((a.positionPx.1 : ℚ) - (b.positionPx.1 : ℚ)) ^ 2 +
        ((a.positionPx.2 : ℚ) - (b.positionPx.2 : ℚ)) ^ 2) →
      (∀ t ∈ (populateLoop contour bb target msp minD maxD mx my height
          fuel acc s).1, 0 ≤ pointPolygonTest contour t.positionPx) ∧
      (populateLoop contour bb target msp minD maxD mx my height
          fuel acc s).1.Pairwise (fun a b => msp ^ 2 ≤
        ((a.positionPx.1 : ℚ) - (b.positionPx.1 : ℚ)) ^ 2 +
        ((a.positionPx.2 : ℚ) - (b.positionPx.2 : ℚ)) ^ 2) := by
  intro fuel
  induction fuel with
  | zero => intro acc s hin hp; exact ⟨by simpa [populateLoop] using hin,
      by simpa [populateLoop] using hp⟩
  | succ fuel ih =>
    intro acc s hin hp
    rw [populateLoop]
    split
    · exact ⟨hin, hp⟩
    · dsimp only
      split
      · exact ih acc _ hin hp
      · split
        · exact ih acc _ hin hp
        · rename_i hppt htc
          refine ih _ _ ?_ ?_
          · intro t ht
            rcases List.mem_append.mp ht with h | h
            · exact hin t h
            · have : t = ⟨(_, _), (_, _), _⟩ := List.mem_singleton.mp h
              subst this
              exact le_of_not_lt hppt
          · rw [List.pairwise_append]
            refine ⟨hp, List.pairwise_singleton _ _, ?_⟩
            intro a ha b hb
            have hb' := List.mem_singleton.mp hb
            subst hb'
            have htc' := htc
            rw [Bool.not_eq_true, tooClose, List.any_eq_false] at htc'
            have := htc' a ha
            rw [decide_eq_true_eq] at this
            push_neg at this
            have hle := this hmsp
            dsimp only
            nlinarith [hle]

theorem populateLoop_posM (contour : List (ℤ × ℤ)) (bb : Rect)
    (target : ℕ) (msp minD maxD mx my : ℚ) (height : ℤ) :
    ∀ fuel acc s,
      (∀ t ∈ acc, t.positionM =
        (round2 ((t.positionPx.1 : ℚ) * mx),
         round2 (((height - t.positionPx.2 : ℤ) : ℚ) * my))) →
      ∀ t ∈ (populateLoop contour bb target msp minD maxD mx my height
          fuel acc s).1, t.positionM =
        (round2 ((t.positionPx.1 : ℚ) * mx),
         round2 (((height - t.positionPx.2 : ℤ) : ℚ) * my)) := by
  intro fuel
  induction fuel with
  | zero => intro acc s hin; simpa [populateLoop] using hin
  | succ fuel ih =>
    intro acc s hin
    rw [populateLoop]
    split
    · exact hin
    · dsimp only
      split
      · exact ih acc _ hin
      · split
        · exact ih acc _ hin
        · refine ih _ _ ?_
          intro t ht
          rcases List.mem_append.mp ht with h | h
          · exact hin t h
          · have : t = ⟨(_, _), (_, _), _⟩ := List.mem_singleton.mp h
            subst this
            rfl

theorem processContour_inl (params : DetectionParams) (mx my : ℚ) (height : ℤ)
    (ma ca : ℚ) (c : List (ℤ × ℤ)) (s : RandState) (t : IndividualTree)
    (h : (processContour params mx my height ma ca c s).1 = some (Sum.inl t)) :
    t.polygonPx = c ∧
    ma ≤ contourArea c ∧
    (contourMoments c).m00 ≠ 0 ∧
    t.centroidPx = (truncQ ((contourMoments c).m10 / (contourMoments c).m00),
      truncQ ((contourMoments c).m01 / (contourMoments c).m00)) ∧
    t.centroidM = (round2 ((t.centroidPx.1 : ℚ) * mx),
      round2 (((height - t.centroidPx.2 : ℤ) : ℚ) * my)) ∧
    t.polygonM = c.map (fun p => (round2 ((p.1 : ℚ) * mx),
      round2 (((height - p.2 : ℤ) : ℚ) * my))) ∧
    t.areaM2 = round2 (contourArea c * mx * my) ∧
    contourArea c * mx * my ≤ ca ∧
    leSqrtB params.min_diameter (4 * (contourArea c * mx * my / mathPi)) = true ∧
    sqrtLeB (4 * (contourArea c * mx * my / mathPi)) params.max_diameter = true ∧
    t.estimatedDiameterM = round2OfSqrt (4 * (contourArea c * mx * my / mathPi)) := by
  unfold processContour at h
  dsimp only at h
  split at h
  · simp at h
  · split at h
    · simp at h
    · rename_i hma hm00
      split at h
      · simp at h
      · split at h
        · rename_i hca hcheck
          simp only [Option.some.injEq, Sum.inl.injEq] at h
          subst h
          rw [Bool.and_eq_true] at hcheck
          refine ⟨rfl, le_of_not_lt hma, hm00, rfl, rfl, rfl, rfl,
            le_of_not_lt hca, hcheck.1, hcheck.2, rfl⟩
        · simp at h

theorem processContour_inr (params : DetectionParams) (mx my : ℚ) (height : ℤ)
    (ma ca : ℚ) (c : List (ℤ × ℤ)) (s : RandState) (cl : TreeCluster)
    (h : (processContour params mx my height ma ca c s).1 = some (Sum.inr cl)) :
    cl.polygonPx = c ∧
    ma ≤ contourArea c ∧
    (contourMoments c).m00 ≠ 0 ∧
    cl.centroidPx = (truncQ ((contourMoments c).m10 / (contourMoments c).m00),
      truncQ ((contourMoments c).m01 / (contourMoments c).m00)) ∧
    cl.centroidM = (round2 ((cl.centroidPx.1 : ℚ) * mx),
      round2 (((height - cl.centroidPx.2 : ℤ) : ℚ) * my)) ∧
    cl.polygonM = c.map (fun p => (round2 ((p.1 : ℚ) * mx),
      round2 (((height - p.2 : ℤ) : ℚ) * my))) ∧
    cl.areaM2 = round2 (contourArea c * mx * my) ∧
    ca < contourArea c * mx * my ∧
    cl.populatedTrees = (populate_cluster c (contourArea c * mx * my) mx my
      params.min_diameter params.max_diameter height s).1 := by
  unfold processContour at h
  dsimp only at h
  split at h
  · simp at h
  · split at h
    · simp at h
    · rename_i hma hm00
      split at h
      · rename_i hca
        simp only [Option.some.injEq, Sum.inr.injEq] at h
        subst h
        exact ⟨rfl, le_of_not_lt hma, hm00, rfl, rfl, rfl, rfl, hca, rfl⟩
      · split at h
        · simp at h
        · simp at h

theorem detectLoop_forall (params : DetectionParams) (mx my : ℚ) (height : ℤ)
    (ma ca : ℚ) (P : IndividualTree → Prop) (Q : TreeCluster → Prop)
    (hP : ∀ c s t, (processContour params mx my height ma ca c s).1
      = some (Sum.inl t) → P t)
    (hQ : ∀ c s cl, (processContour params mx my height ma ca c s).1
      = some (Sum.inr cl) → Q cl) :
    ∀ cs s,
      (∀ t ∈ (detectLoop params mx my height ma ca cs s).1, P t) ∧
      (∀ cl ∈ (detectLoop params mx my height ma ca cs s).2.1, Q cl) := by
  intro cs
  induction cs with
  | nil => intro s; simp [detectLoop]
  | cons c rest ih =>
    intro s
    rw [detectLoop]
    split
    · exact ih _
    · rename_i e heq
      constructor
      · intro t ht
        rcases List.mem_cons.mp ht with h | h
        · subst h; exact hP c s _ heq
        · exact (ih _).1 t h
      · exact (ih _).2
    · rename_i e heq
      constructor
      · exact (ih _).1
      · intro cl hcl
        rcases List.mem_cons.mp hcl with h | h
        · subst h; exact hQ c s _ heq
        · exact (ih _).2 cl h

theorem mathPi_pos : 0 < mathPi := by norm_num [mathPi]

theorem truncQ_eq_floor {q : ℚ} (hq : 0 ≤ q) : truncQ q = ⌊q⌋ := by
  rw [truncQ, Rat.floor_def]
  exact Int.tdiv_eq_ediv (Rat.num_nonneg.mpr hq) (Int.ofNat_nonneg _)

theorem leSqrtB_sound {c u : ℚ} (h : leSqrtB c u = true) :
    (c : ℝ) ≤ Real.sqrt (u : ℝ) := by
  rw [leSqrtB, decide_eq_true_eq] at h
  rcases h with h | h
  · have hc : (c : ℝ) ≤ 0 := by exact_mod_cast h
    exact le_trans hc (Real.sqrt_nonneg _)
  · refine Real.le_sqrt_of_sq_le ?_
    have : ((c ^ 2 : ℚ) : ℝ) ≤ ((u : ℚ) : ℝ) := by exact_mod_cast h
    push_cast at this
    exact this

theorem sqrtLeB_sound {c u : ℚ} (h : sqrtLeB u c = true) :
    Real.sqrt (u : ℝ) ≤ (c : ℝ) := by
  rw [sqrtLeB, decide_eq_true_eq] at h
  refine Real.sqrt_le_iff.mpr ⟨by exact_mod_cast h.1, ?_⟩
  have : ((u : ℚ) : ℝ) ≤ ((c ^ 2 : ℚ) : ℝ) := by exact_mod_cast h.2
  push_cast at this
  exact this

theorem sqrt_four_mul (x : ℝ) : Real.sqrt (4 * x) = 2 * Real.sqrt x := by
  rw [show (4 : ℝ) = 2 ^ 2 by norm_num,
    Real.sqrt_mul (by positivity) x, Real.sqrt_sq (by norm_num)]

/-- A concrete generator state whose streams are constantly zero; used
to evaluate the pipeline on specific inputs. -/
def rsZero : RandState := ⟨fun _ => 0, fun _ => 0, 0⟩

/-- A one-pixel-square contour inside a 2 by 2 image. -/
def unitSquare : List (ℤ × ℤ) := [(0, 0), (1, 0), (1, 1), (0, 1)]

/-- Parameters making unitSquare a cluster: diameters 1 to 3 m,
cluster threshold 1 m. -/
def unitParams : DetectionParams := ⟨1, 3, 1⟩

/-- Real dimensions 2 by 2 m for the 2 by 2 image: one meter per
pixel. -/
def unitDims : RealDimensions := ⟨2, 2⟩

/-- The cluster the pipeline produces from unitSquare with unitParams,
unitDims and the zero generator state. -/
def clusterSmall : TreeCluster :=
  { areaM2 := 1
    centroidPx := (0, 0)
    centroidM := (0, 2)
    polygonPx := [(0, 0), (1, 0), (1, 1), (0, 1)]
    polygonM := [(0, 2), (1, 2), (1, 1), (0, 1)]
    populatedTrees := [⟨(0, 0), (0, 2), 1⟩] }

/-- A 2-pixel-square contour inside a 3 by 3 image. -/
def threeSquare : List (ℤ × ℤ) := [(0, 0), (2, 0), (2, 2), (0, 2)]

/-- Parameters classifying threeSquare as an individual tree. -/
def thirdParams : DetectionParams := ⟨1/10, 3, 5⟩

/-- Real dimensions 1 by 3 m for the 3 by 3 image: the horizontal
scale factor is one third, so exact metric coordinates are not
representable at two decimals. -/
def thirdDims : RealDimensions := ⟨1, 3⟩

/-- The individual tree the pipeline produces from threeSquare with
thirdParams and thirdDims. -/
def treeThird : IndividualTree :=
  { centroidPx := (1, 1)
    centroidM := (33/100, 2)
    areaM2 := 133/100
    estimatedDiameterM := 13/10
    polygonPx := [(0, 0), (2, 0), (2, 2), (0, 2)]
    polygonM := [(0, 3), (67/100, 3), (67/100, 1), (0, 1)] }

/-- A 10-pixel-square contour inside an 11 by 11 image. -/
def bigSquare : List (ℤ × ℤ) := [(0, 0), (10, 0), (10, 10), (0, 10)]

/-- Parameters with cluster threshold 5 m, giving a cluster area
threshold of about 19.6349540849 square meters. -/
def edgeParams : DetectionParams := ⟨1, 10, 5⟩

/-- Real dimensions tuned so that the cluster region's exact metric
area is 19.6349541 square meters: strictly above the cluster area
threshold, but rounding to two decimals drops it to 19.63, below it. -/
def edgeDims : RealDimensions := ⟨11 * (196349541 / 1000000000), 11⟩

/-- Parameters whose minimum diameter 1.004 m sits between a
representable rounded value and the exact estimated diameter. -/
def nearMinParams : DetectionParams := ⟨251/250, 3, 5⟩

/-- Real dimensions tuned so that the region's exact estimated
diameter is sqrt 1.0081, about 1.00404 m: inside the accepted bounds,
but rounded to two decimals it becomes 1.00, below the minimum. -/
def nearMinDims : RealDimensions := ⟨11 * ((10081/10000) * mathPi / 400), 11⟩

/-- Parameters with inverted diameter bounds: the minimum 3 m exceeds
the maximum 1 m. -/
def invalidParams : DetectionParams := ⟨3, 1, 1⟩

/-- A uniformly green pixel image. -/
def imgGreen : ℤ → ℤ → Bgr := fun _ _ => ⟨0, 200, 0⟩

/-- Thresholds whose hue range is inverted: minimum 100 above
maximum 50. -/
def invThresholds : HsvThresholds := ⟨⟨100, 50⟩, ⟨0, 255⟩, ⟨0, 255⟩⟩

theorem populate_cluster_def (contour : List (ℤ × ℤ))
    (area_m2 mx my minD maxD : ℚ) (height : ℤ) (s : RandState) :
    populate_cluster contour area_m2 mx my minD maxD height s =
      populateLoop contour (boundingRect contour)
        (max 1 (truncQ (area_m2 / (mathPi * ((minD + maxD) / 2 / 2) ^ 2)))).toNat
        (minD / ((mx + my) / 2)) minD maxD mx my height
        ((max 1 (truncQ (area_m2 /
          (mathPi * ((minD + maxD) / 2 / 2) ^ 2)))).toNat * 10) [] s := rfl

theorem detect_lists_def (width height : ℤ) (contours : List (List (ℤ × ℤ)))
    (params : DetectionParams) (rd : RealDimensions) (s : RandState) :
    (detect_trees_in_image width height contours params rd s).individualTrees =
      (detectLoop params (rd.width / (width : ℚ)) (rd.height / (height : ℚ))
        height (mathPi * (params.min_diameter / 2) ^ 2 /
          ((rd.width / (width : ℚ)) * (rd.height / (height : ℚ))))
        (mathPi * (params.cluster_threshold / 2) ^ 2) contours s).1 ∧
    (detect_trees_in_image width height contours params rd s).treeClusters =
      (detectLoop params (rd.width / (width : ℚ)) (rd.height / (height : ℚ))
        height (mathPi * (params.min_diameter / 2) ^ 2 /
          ((rd.width / (width : ℚ)) * (rd.height / (height : ℚ))))
        (mathPi * (params.cluster_threshold / 2) ^ 2) contours s).2.1 :=
  ⟨rfl, rfl⟩

/-- C8: a pixel is in the vegetation mask exactly when its hue,
saturation and value each lie inside their inclusive bounds, the
conjunction ranging over all three channels; and a channel whose
minimum exceeds its maximum makes the mask false at every pixel, with
no wraparound correction. -/
theorem hsv_mask_iff_bounds (img : ℤ → ℤ → Bgr) (t : HsvThresholds)
    (x y : ℤ) :
    (hsvMask img t x y = true ↔
      (t.hue.lo ≤ (bgrToHsv (img x y)).h ∧ (bgrToHsv (img x y)).h ≤ t.hue.hi ∧
       t.sat.lo ≤ (bgrToHsv (img x y)).s ∧ (bgrToHsv (img x y)).s ≤ t.sat.hi ∧
       t.val.lo ≤ (bgrToHsv (img x y)).v ∧ (bgrToHsv (img x y)).v ≤ t.val.hi)) ∧
    (t.hue.hi < t.hue.lo → hsvMask img t x y = false) ∧
    (t.sat.hi < t.sat.lo → hsvMask img t x y = false) ∧
    (t.val.hi < t.val.lo → hsvMask img t x y = false) := by
  have hiff : hsvMask img t x y = true ↔
      (t.hue.lo ≤ (bgrToHsv (img x y)).h ∧ (bgrToHsv (img x y)).h ≤ t.hue.hi ∧
       t.sat.lo ≤ (bgrToHsv (img x y)).s ∧ (bgrToHsv (img x y)).s ≤ t.sat.hi ∧
       t.val.lo ≤ (bgrToHsv (img x y)).v ∧ (bgrToHsv (img x y)).v ≤ t.val.hi) := by
    simp [hsvMask, inHsvRange, and_assoc]
  refine ⟨hiff, ?_, ?_, ?_⟩ <;> intro hlt <;> rw [Bool.eq_false_iff] <;>
    intro htrue <;> have hb := hiff.mp htrue <;> omega

/-- C8 witness: with an inverted hue range the mask is false at a
concrete green pixel. -/
theorem hsv_mask_iff_bounds_witness :
    hsvMask imgGreen invThresholds 0 0 = false :=
  (hsv_mask_iff_bounds imgGreen invThresholds 0 0).2.1 (by decide)

/-- C1: with the generator state made an explicit argument, the
pipeline is a pure function of its inputs: equal states yield
identical populated-tree lists in every cluster.  In the Python source
this state is not an argument of the call: populate_cluster reads the
ambient module-global np.random, so reproducibility holds only through
global seeding, not through a generator passed into the call. -/
theorem detect_deterministic_in_state (width height : ℤ)
    (contours : List (List (ℤ × ℤ))) (params : DetectionParams)
    (rd : RealDimensions) (s₁ s₂ : RandState) (h : s₁ = s₂) :
    (detect_trees_in_image width height contours params rd s₁).treeClusters.map
        (fun cl => cl.populatedTrees) =
      (detect_trees_in_image width height contours params rd s₂).treeClusters.map
        (fun cl => cl.populatedTrees) := by
  rw [h]

/-- C1 witness: the determinism theorem applied at a concrete cluster
scenario with the zero generator state. -/
theorem detect_deterministic_in_state_witness :
    (detect_trees_in_image 2 2 [unitSquare] unitParams unitDims
        rsZero).treeClusters.map (fun cl => cl.populatedTrees) =
      (detect_trees_in_image 2 2 [unitSquare] unitParams unitDims
        rsZero).treeClusters.map (fun cl => cl.populatedTrees) :=
  detect_deterministic_in_state 2 2 [unitSquare] unitParams unitDims
    rsZero rsZero rfl

/-- C2: the detect-trees endpoint performs no numeric input
validation.  The hypotheses pin down a parameter region on which the
Python source raises no exception at all: positive pixel dimensions
(any decoded image has them), positive real dimensions, and inverted
diameter bounds with 0 < max_diameter <= min_diameter.  There every
division and square root in the pipeline is well defined, the program
runs segmentation and classification to completion, and the call
returns a success response instead of failing fast with an
invalid-input error.  A zero or negative real dimension is likewise
not validated, but in the source it surfaces as an internal server
error from a mid-pipeline ZeroDivisionError or ValueError rather than
as a fail-fast invalid-input error; that raising path is outside this
total embedding, so this theorem deliberately does not cover it.  The
only fast-rejected input is an image buffer that fails to decode. -/
theorem detect_trees_accepts_invalid_params (width height : ℤ)
    (contours : List (List (ℤ × ℤ))) (params : DetectionParams)
    (rd : RealDimensions) (s : RandState)
    (_h : 0 < width ∧ 0 < height ∧
      0 < params.max_diameter ∧ params.max_diameter ≤ params.min_diameter ∧
      0 < rd.width ∧ 0 < rd.height) :
    (detect_trees (some (width, height, contours)) params rd s).isOk
      = true := rfl

/-- C2 witness: with inverted diameter bounds (minimum 3 m above
maximum 1 m) on a decodable 2 by 2 image with positive real
dimensions, the endpoint succeeds instead of failing fast. -/
theorem detect_trees_accepts_invalid_params_witness :
    ((0 : ℤ) < 2 ∧ (0 : ℤ) < 2 ∧
      0 < invalidParams.max_diameter ∧
      invalidParams.max_diameter ≤ invalidParams.min_diameter ∧
      0 < unitDims.width ∧ 0 < unitDims.height) ∧
    (detect_trees (some (2, 2, [unitSquare])) invalidParams unitDims
      rsZero).isOk = true :=
  ⟨by decide, detect_trees_accepts_invalid_params 2 2 [unitSquare]
    invalidParams unitDims rsZero (by decide)⟩

/-- C4: every accepted populated tree lies inside the cluster polygon
under the boundary-inclusive point-in-polygon test (test value 0 on
the boundary, 1 inside, so acceptance is a nonnegative value), and any
two accepted positions in one cluster are at pixel distance at least
minSpacingPx = minDiameterM / avg(scaleX, scaleY). -/
theorem populate_cluster_spacing (contour : List (ℤ × ℤ))
    (area_m2 mx my minD maxD : ℚ) (height : ℤ) (s : RandState)
    (hmin : 0 < minD) (hsum : 0 < mx + my) :
    (∀ t ∈ (populate_cluster contour area_m2 mx my minD maxD height s).1,
      0 ≤ pointPolygonTest contour t.positionPx) ∧
    (populate_cluster contour area_m2 mx my minD maxD height
        s).1.Pairwise (fun a b =>
      ((minD / ((mx + my) / 2) : ℚ) : ℝ) ≤
        Real.sqrt (((a.positionPx.1 : ℝ) - (b.positionPx.1 : ℝ)) ^ 2 +
          ((a.positionPx.2 : ℝ) - (b.positionPx.2 : ℝ)) ^ 2)) := by
  have hmsp : 0 < minD / ((mx + my) / 2) := div_pos hmin (by linarith)
  rw [populate_cluster_def]
  obtain ⟨h1, h2⟩ := populateLoop_inv contour (boundingRect contour)
    (max 1 (truncQ (area_m2 /
      (mathPi * ((minD + maxD) / 2 / 2) ^ 2)))).toNat
    (minD / ((mx + my) / 2)) minD maxD mx my height hmsp
    ((max 1 (truncQ (area_m2 /
      (mathPi * ((minD + maxD) / 2 / 2) ^ 2)))).toNat * 10) [] s
    (by simp) List.Pairwise.nil
  refine ⟨h1, h2.imp ?_⟩
  intro a b hq
  exact Real.le_sqrt_of_sq_le (by exact_mod_cast hq)

/-- C4 witness: the spacing theorem applied at the concrete cluster
scenario, whose single accepted tree sits on the polygon boundary. -/
theorem populate_cluster_spacing_witness :
    (∀ t ∈ (populate_cluster unitSquare 1 1 1 1 3 2 rsZero).1,
      0 ≤ pointPolygonTest unitSquare t.positionPx) ∧
    (populate_cluster unitSquare 1 1 1 1 3 2 rsZero).1.Pairwise (fun a b =>
      ((1 / ((1 + 1) / 2) : ℚ) : ℝ) ≤
        Real.sqrt (((a.positionPx.1 : ℝ) - (b.positionPx.1 : ℝ)) ^ 2 +
          ((a.positionPx.2 : ℝ) - (b.positionPx.2 : ℝ)) ^ 2)) :=
  populate_cluster_spacing unitSquare 1 1 1 1 3 2 rsZero
    (by decide) (by decide)

/-- C5: the population loop of one cluster consumes at most
targetCount * 10 candidate draws, and the resulting tree list has
length at most targetCount, where targetCount =
max(1, floor(areaM2 / avgArea)) with avgArea =
pi * ((minDiameterM + maxDiameterM) / 4) ^ 2; stopping short of
targetCount is an accepted outcome, not an error branch. -/
theorem populate_cluster_budget (contour : List (ℤ × ℤ))
    (area_m2 mx my minD maxD : ℚ) (height : ℤ) (s : RandState)
    (h1 : 0 ≤ area_m2) (h2 : 0 < minD + maxD) :
    ((populate_cluster contour area_m2 mx my minD maxD height
        s).1.length : ℤ) ≤
      max 1 ⌊area_m2 / (mathPi * ((minD + maxD) / 4) ^ 2)⌋ ∧
    ((populate_cluster contour area_m2 mx my minD maxD height
        s).2.1 : ℤ) ≤
      max 1 ⌊area_m2 / (mathPi * ((minD + maxD) / 4) ^ 2)⌋ * 10 := by
  have havg : 0 < mathPi * ((minD + maxD) / 2 / 2) ^ 2 := by
    have h4 : 0 < (minD + maxD) / 2 / 2 := by linarith
    exact mul_pos mathPi_pos (pow_pos h4 2)
  have hq : 0 ≤ area_m2 / (mathPi * ((minD + maxD) / 2 / 2) ^ 2) :=
    div_nonneg h1 havg.le
  have heq24 : mathPi * ((minD + maxD) / 2 / 2) ^ 2 =
      mathPi * ((minD + maxD) / 4) ^ 2 := by ring
  have htr : truncQ (area_m2 / (mathPi * ((minD + maxD) / 2 / 2) ^ 2)) =
      ⌊area_m2 / (mathPi * ((minD + maxD) / 4) ^ 2)⌋ := by
    rw [truncQ_eq_floor hq, heq24]
  have htn : (((max 1 (truncQ (area_m2 /
      (mathPi * ((minD + maxD) / 2 / 2) ^ 2)))).toNat : ℤ)) =
      max 1 ⌊area_m2 / (mathPi * ((minD + maxD) / 4) ^ 2)⌋ := by
    rw [htr]
    exact Int.toNat_of_nonneg (by positivity)
  rw [populate_cluster_def]
  constructor
  · have hlen := populateLoop_length_le contour (boundingRect contour)
      (max 1 (truncQ (area_m2 /
        (mathPi * ((minD + maxD) / 2 / 2) ^ 2)))).toNat
      (minD / ((mx + my) / 2)) minD maxD mx my height
      ((max 1 (truncQ (area_m2 /
        (mathPi * ((minD + maxD) / 2 / 2) ^ 2)))).toNat * 10) [] s
    simp only [List.length_nil, Nat.max_zero] at hlen
    omega
  · have hatt := populateLoop_attempts_le contour (boundingRect contour)
      (max 1 (truncQ (area_m2 /
        (mathPi * ((minD + maxD) / 2 / 2) ^ 2)))).toNat
      (minD / ((mx + my) / 2)) minD maxD mx my height
      ((max 1 (truncQ (area_m2 /
        (mathPi * ((minD + maxD) / 2 / 2) ^ 2)))).toNat * 10) [] s
    omega

/-- C5 witness: the budget theorem applied at the concrete cluster
scenario, where the target count is one and the loop accepts on its
first draw. -/
theorem populate_cluster_budget_witness :
    ((populate_cluster unitSquare 1 1 1 1 3 2 rsZero).1.length : ℤ) ≤
      max 1 ⌊(1 : ℚ) / (mathPi * (((1 : ℚ) + 3) / 4) ^ 2)⌋ ∧
    ((populate_cluster unitSquare 1 1 1 1 3 2 rsZero).2.1 : ℤ) ≤
      max 1 ⌊(1 : ℚ) / (mathPi * (((1 : ℚ) + 3) / 4) ^ 2)⌋ * 10 :=
  populate_cluster_budget unitSquare 1 1 1 1 3 2 rsZero
    (by decide) (by decide)

/-- C9: every region reported as an individual tree or a cluster has
pixel polygon area at least minAreaPx = pi * (minDiameterM / 2) ^ 2 /
(scaleX * scaleY); smaller regions are discarded as noise before the
output is assembled. -/
theorem detect_min_area_filter (width height : ℤ)
    (contours : List (List (ℤ × ℤ))) (params : DetectionParams)
    (rd : RealDimensions) (s : RandState) :
    (∀ t ∈ (detect_trees_in_image width height contours params rd
        s).individualTrees,
      mathPi * (params.min_diameter / 2) ^ 2 /
        ((rd.width / (width : ℚ)) * (rd.height / (height : ℚ))) ≤
        contourArea t.polygonPx) ∧
    (∀ cl ∈ (detect_trees_in_image width height contours params rd
        s).treeClusters,
      mathPi * (params.min_diameter / 2) ^ 2 /
        ((rd.width / (width : ℚ)) * (rd.height / (height : ℚ))) ≤
        contourArea cl.polygonPx) := by
  obtain ⟨hi, hc⟩ := detect_lists_def width height contours params rd s
  rw [hi, hc]
  exact detectLoop_forall params (rd.width / (width : ℚ))
    (rd.height / (height : ℚ)) height
    (mathPi * (params.min_diameter / 2) ^ 2 /
      ((rd.width / (width : ℚ)) * (rd.height / (height : ℚ))))
    (mathPi * (params.cluster_threshold / 2) ^ 2)
    (fun t => mathPi * (params.min_diameter / 2) ^ 2 /
      ((rd.width / (width : ℚ)) * (rd.height / (height : ℚ))) ≤
      contourArea t.polygonPx)
    (fun cl => mathPi * (params.min_diameter / 2) ^ 2 /
      ((rd.width / (width : ℚ)) * (rd.height / (height : ℚ))) ≤
      contourArea cl.polygonPx)
    (fun c s t h => by
      obtain ⟨hpoly, hma, _⟩ := processContour_inl _ _ _ _ _ _ _ _ _ h
      rw [hpoly]; exact hma)
    (fun c s cl h => by
      obtain ⟨hpoly, hma, _⟩ := processContour_inr _ _ _ _ _ _ _ _ _ h
      rw [hpoly]; exact hma)
    contours s

/-- C9 witness: the noise-filter theorem applied to the concrete
cluster produced from the small square scenario. -/
theorem detect_min_area_filter_witness :
    clusterSmall ∈ (detect_trees_in_image 2 2 [unitSquare] unitParams
      unitDims rsZero).treeClusters ∧
    mathPi * (unitParams.min_diameter / 2) ^ 2 /
      ((unitDims.width / ((2 : ℤ) : ℚ)) * (unitDims.height / ((2 : ℤ) : ℚ))) ≤
      contourArea clusterSmall.polygonPx :=
  ⟨by decide, (detect_min_area_filter 2 2 [unitSquare] unitParams unitDims
    rsZero).2 clusterSmall (by decide)⟩

/-- C6 counterexample: a cluster whose exact metric area 19.6349541
exceeds the threshold pi * (5 / 2) ^ 2 = 19.6349540849... but whose
reported areaM2 field, rounded to two decimals, is 19.63: at this
concrete input the detection result contains a TreeCluster with
areaM2 at most the threshold area, refuting the claimed strict
inequality for the reported field. -/
theorem cluster_area_claim_fails :
    ((detect_trees_in_image 11 11 [bigSquare] edgeParams edgeDims
      rsZero).treeClusters.any (fun cl =>
        decide (cl.areaM2 ≤ mathPi * (edgeParams.cluster_threshold / 2) ^ 2)))
      = true := by decide

/-- C6 as amended: every reported cluster's exact (unrounded) metric
area areaPx * scaleX * scaleY strictly exceeds
pi * (clusterThresholdM / 2) ^ 2, and the stored areaM2 field is the
two-decimal rounding of that exact area (which can fall up to half a
cent below the threshold). -/
theorem detect_cluster_area_exceeds_threshold (width height : ℤ)
    (contours : List (List (ℤ × ℤ))) (params : DetectionParams)
    (rd : RealDimensions) (s : RandState) :
    ∀ cl ∈ (detect_trees_in_image width height contours params rd
        s).treeClusters,
      mathPi * (params.cluster_threshold / 2) ^ 2 <
        contourArea cl.polygonPx * (rd.width / (width : ℚ)) *
          (rd.height / (height : ℚ)) ∧
      cl.areaM2 = round2 (contourArea cl.polygonPx *
        (rd.width / (width : ℚ)) * (rd.height / (height : ℚ))) := by
  obtain ⟨_, hc⟩ := detect_lists_def width height contours params rd s
  rw [hc]
  exact (detectLoop_forall params (rd.width / (width : ℚ))
    (rd.height / (height : ℚ)) height
    (mathPi * (params.min_diameter / 2) ^ 2 /
      ((rd.width / (width : ℚ)) * (rd.height / (height : ℚ))))
    (mathPi * (params.cluster_threshold / 2) ^ 2)
    (fun _ => True)
    (fun cl => mathPi * (params.cluster_threshold / 2) ^ 2 <
        contourArea cl.polygonPx * (rd.width / (width : ℚ)) *
          (rd.height / (height : ℚ)) ∧
      cl.areaM2 = round2 (contourArea cl.polygonPx *
        (rd.width / (width : ℚ)) * (rd.height / (height : ℚ))))
    (fun _ _ _ _ => trivial)
    (fun c s cl h => by
      obtain ⟨hpoly, _, _, _, _, _, harea, hca, _⟩ :=
        processContour_inr _ _ _ _ _ _ _ _ _ h
      rw [hpoly]; exact ⟨hca, harea⟩)
    contours s).2

/-- C6 witness: the amended cluster-area theorem applied to the
concrete small-square cluster. -/
theorem detect_cluster_area_witness :
    clusterSmall ∈ (detect_trees_in_image 2 2 [unitSquare] unitParams
      unitDims rsZero).treeClusters ∧
    (mathPi * (unitParams.cluster_threshold / 2) ^ 2 <
      contourArea clusterSmall.polygonPx * (unitDims.width / ((2 : ℤ) : ℚ)) *
        (unitDims.height / ((2 : ℤ) : ℚ)) ∧
    clusterSmall.areaM2 = round2 (contourArea clusterSmall.polygonPx *
      (unitDims.width / ((2 : ℤ) : ℚ)) * (unitDims.height / ((2 : ℤ) : ℚ)))) :=
  ⟨by decide, detect_cluster_area_exceeds_threshold 2 2 [unitSquare]
    unitParams unitDims rsZero clusterSmall (by decide)⟩

/-- C7 counterexample: a region whose exact estimated diameter is
sqrt 1.0081, about 1.00404 m, inside the accepted bounds
[1.004, 3], but whose reported estimatedDiameterM field rounds to
1.00, strictly below the minimum bound: at this concrete input the
detection result contains an IndividualTree whose estimatedDiameterM
violates minDiameterM <= estimatedDiameterM. -/
theorem individual_diameter_claim_fails :
    ((detect_trees_in_image 11 11 [bigSquare] nearMinParams nearMinDims
      rsZero).individualTrees.any (fun t =>
        decide (t.estimatedDiameterM < nearMinParams.min_diameter)))
      = true := by decide

/-- C7 as amended: every reported individual tree's estimatedDiameterM
field is the two-decimal rounding of the exact diameter
2 * sqrt(areaPx * scaleX * scaleY / pi), and that exact (unrounded)
diameter lies within [minDiameterM, maxDiameterM]; the rounded stored
field can differ from the bounds by strictly less than half a cent.
The scale-factor hypothesis restricts to inputs on which the source's
square root is defined (a negative radicand would raise in Python). -/
theorem detect_individual_diameter_bounds (width height : ℤ)
    (contours : List (List (ℤ × ℤ))) (params : DetectionParams)
    (rd : RealDimensions) (s : RandState)
    (_hs : 0 ≤ (rd.width / (width : ℚ)) * (rd.height / (height : ℚ))) :
    ∀ t ∈ (detect_trees_in_image width height contours params rd
        s).individualTrees,
      t.estimatedDiameterM = round2OfSqrt (4 * (contourArea t.polygonPx *
        (rd.width / (width : ℚ)) * (rd.height / (height : ℚ)) / mathPi)) ∧
      (params.min_diameter : ℝ) ≤ 2 * Real.sqrt
        (((contourArea t.polygonPx * (rd.width / (width : ℚ)) *
          (rd.height / (height : ℚ)) / mathPi : ℚ)) : ℝ) ∧
      2 * Real.sqrt (((contourArea t.polygonPx * (rd.width / (width : ℚ)) *
          (rd.height / (height : ℚ)) / mathPi : ℚ)) : ℝ) ≤
        (params.max_diameter : ℝ) := by
  obtain ⟨hi, _⟩ := detect_lists_def width height contours params rd s
  rw [hi]
  exact (detectLoop_forall params (rd.width / (width : ℚ))
    (rd.height / (height : ℚ)) height
    (mathPi * (params.min_diameter / 2) ^ 2 /
      ((rd.width / (width : ℚ)) * (rd.height / (height : ℚ))))
    (mathPi * (params.cluster_threshold / 2) ^ 2)
    (fun t => t.estimatedDiameterM = round2OfSqrt (4 *
        (contourArea t.polygonPx * (rd.width / (width : ℚ)) *
          (rd.height / (height : ℚ)) / mathPi)) ∧
      (params.min_diameter : ℝ) ≤ 2 * Real.sqrt
        (((contourArea t.polygonPx * (rd.width / (width : ℚ)) *
          (rd.height / (height : ℚ)) / mathPi : ℚ)) : ℝ) ∧
      2 * Real.sqrt (((contourArea t.polygonPx * (rd.width / (width : ℚ)) *
          (rd.height / (height : ℚ)) / mathPi : ℚ)) : ℝ) ≤
        (params.max_diameter : ℝ))
    (fun _ => True)
    (fun c s t h => by
      obtain ⟨hpoly, _, _, _, _, _, _, _, hlo, hhi, hdiam⟩ :=
        processContour_inl _ _ _ _ _ _ _ _ _ h
      rw [← hpoly] at hlo hhi hdiam
      have hl := leSqrtB_sound hlo
      have hh := sqrtLeB_sound hhi
      have hcast : ((4 * (contourArea t.polygonPx *
          (rd.width / (width : ℚ)) * (rd.height / (height : ℚ)) / mathPi)
            : ℚ) : ℝ) =
          4 * (((contourArea t.polygonPx * (rd.width / (width : ℚ)) *
            (rd.height / (height : ℚ)) / mathPi : ℚ)) : ℝ) := by
        push_cast
        ring
      rw [hcast, sqrt_four_mul] at hl hh
      exact ⟨hdiam, hl, hh⟩)
    (fun _ _ _ _ => trivial)
    contours s).1

/-- C7 witness: the amended diameter theorem applied to the concrete
individual tree of the one-third-scale scenario. -/
theorem detect_individual_diameter_witness :
    treeThird ∈ (detect_trees_in_image 3 3 [threeSquare] thirdParams
      thirdDims rsZero).individualTrees ∧
    (treeThird.estimatedDiameterM = round2OfSqrt (4 *
        (contourArea treeThird.polygonPx * (thirdDims.width / ((3 : ℤ) : ℚ)) *
          (thirdDims.height / ((3 : ℤ) : ℚ)) / mathPi)) ∧
      (thirdParams.min_diameter : ℝ) ≤ 2 * Real.sqrt
        (((contourArea treeThird.polygonPx * (thirdDims.width / ((3 : ℤ) : ℚ)) *
          (thirdDims.height / ((3 : ℤ) : ℚ)) / mathPi : ℚ)) : ℝ) ∧
      2 * Real.sqrt (((contourArea treeThird.polygonPx *
          (thirdDims.width / ((3 : ℤ) : ℚ)) *
          (thirdDims.height / ((3 : ℤ) : ℚ)) / mathPi : ℚ)) : ℝ) ≤
        (thirdParams.max_diameter : ℝ)) :=
  ⟨by decide, detect_individual_diameter_bounds 3 3 [threeSquare]
    thirdParams thirdDims rsZero (by decide) treeThird (by decide)⟩

/-- C3 counterexample: with scaleX = 1/3, the polygon vertex at pixel
x = 2 converts exactly to 2/3 m, but the stored polygonM value is the
two-decimal rounding 0.67, which differs from 2/3: at this concrete
input some reported metric point is not equal to
(x * scaleX, (H - y) * scaleY) of its pixel point. -/
theorem metric_conversion_claim_fails :
    ((detect_trees_in_image 3 3 [threeSquare] thirdParams thirdDims
      rsZero).individualTrees.any (fun t =>
        (t.polygonPx.zip t.polygonM).any (fun pr =>
          decide (pr.2.1 ≠ (pr.1.1 : ℚ) * (thirdDims.width / 3)))))
      = true := by decide

/-- C3 as amended: every reported metric point (centroids, polygon
vertices, populated-tree positions) is the two-decimal rounding of
(x * scaleX, (imageHeightPx - y) * scaleY) applied to its pixel
point, with scaleX = widthM / imageWidthPx and
scaleY = heightM / imageHeightPx; in particular a pixel at row 0 maps
to the rounding of the maximum metric Y. -/
theorem detect_metric_points_rounded (width height : ℤ)
    (contours : List (List (ℤ × ℤ))) (params : DetectionParams)
    (rd : RealDimensions) (s : RandState) :
    (∀ t ∈ (detect_trees_in_image width height contours params rd
        s).individualTrees,
      t.centroidM = (round2 ((t.centroidPx.1 : ℚ) * (rd.width / (width : ℚ))),
        round2 (((height - t.centroidPx.2 : ℤ) : ℚ) *
          (rd.height / (height : ℚ)))) ∧
      t.polygonM = t.polygonPx.map (fun p =>
        (round2 ((p.1 : ℚ) * (rd.width / (width : ℚ))),
         round2 (((height - p.2 : ℤ) : ℚ) * (rd.height / (height : ℚ)))))) ∧
    (∀ cl ∈ (detect_trees_in_image width height contours params rd
        s).treeClusters,
      cl.centroidM = (round2 ((cl.centroidPx.1 : ℚ) * (rd.width / (width : ℚ))),
        round2 (((height - cl.centroidPx.2 : ℤ) : ℚ) *
          (rd.height / (height : ℚ)))) ∧
      cl.polygonM = cl.polygonPx.map (fun p =>
        (round2 ((p.1 : ℚ) * (rd.width / (width : ℚ))),
         round2 (((height - p.2 : ℤ) : ℚ) * (rd.height / (height : ℚ))))) ∧
      ∀ pt ∈ cl.populatedTrees,
        pt.positionM = (round2 ((pt.positionPx.1 : ℚ) * (rd.width / (width : ℚ))),
          round2 (((height - pt.positionPx.2 : ℤ) : ℚ) *
            (rd.height / (height : ℚ))))) := by
  obtain ⟨hi, hc⟩ := detect_lists_def width height contours params rd s
  rw [hi, hc]
  exact detectLoop_forall params (rd.width / (width : ℚ))
    (rd.height / (height : ℚ)) height
    (mathPi * (params.min_diameter / 2) ^ 2 /
      ((rd.width / (width : ℚ)) * (rd.height / (height : ℚ))))
    (mathPi * (params.cluster_threshold / 2) ^ 2)
    (fun t =>
      t.centroidM = (round2 ((t.centroidPx.1 : ℚ) * (rd.width / (width : ℚ))),
        round2 (((height - t.centroidPx.2 : ℤ) : ℚ) *
          (rd.height / (height : ℚ)))) ∧
      t.polygonM = t.polygonPx.map (fun p =>
        (round2 ((p.1 : ℚ) * (rd.width / (width : ℚ))),
         round2 (((height - p.2 : ℤ) : ℚ) * (rd.height / (height : ℚ))))))
    (fun cl =>
      cl.centroidM = (round2 ((cl.centroidPx.1 : ℚ) * (rd.width / (width : ℚ))),
        round2 (((height - cl.centroidPx.2 : ℤ) : ℚ) *
          (rd.height / (height : ℚ)))) ∧
      cl.polygonM = cl.polygonPx.map (fun p =>
        (round2 ((p.1 : ℚ) * (rd.width / (width : ℚ))),
         round2 (((height - p.2 : ℤ) : ℚ) * (rd.height / (height : ℚ))))) ∧
      ∀ pt ∈ cl.populatedTrees,
        pt.positionM = (round2 ((pt.positionPx.1 : ℚ) * (rd.width / (width : ℚ))),
          round2 (((height - pt.positionPx.2 : ℤ) : ℚ) *
            (rd.height / (height : ℚ)))))
    (fun c s t h => by
      obtain ⟨hpoly, _, _, _, hcm, hpm, _⟩ :=
        processContour_inl _ _ _ _ _ _ _ _ _ h
      rw [hpoly]
      exact ⟨hcm, hpm⟩)
    (fun c s cl h => by
      obtain ⟨hpoly, _, _, _, hcm, hpm, _, _, hpop⟩ :=
        processContour_inr _ _ _ _ _ _ _ _ _ h
      rw [hpoly]
      refine ⟨hcm, hpm, ?_⟩
      rw [hpop, populate_cluster_def]
      exact populateLoop_posM _ _ _ _ _ _ _ _ _ _ [] _ (by simp))
    contours s

/-- C3 witness: the amended conversion theorem applied to the concrete
small-square cluster, whose populated tree at pixel row 0 carries the
maximum metric Y of 2 m. -/
theorem detect_metric_points_rounded_witness :
    clusterSmall ∈ (detect_trees_in_image 2 2 [unitSquare] unitParams
      unitDims rsZero).treeClusters ∧
    (clusterSmall.centroidM =
      (round2 ((clusterSmall.centroidPx.1 : ℚ) * (unitDims.width / ((2 : ℤ) : ℚ))),
       round2 ((((2 : ℤ) - clusterSmall.centroidPx.2 : ℤ) : ℚ) *
         (unitDims.height / ((2 : ℤ) : ℚ)))) ∧
    clusterSmall.polygonM = clusterSmall.polygonPx.map (fun p =>
      (round2 ((p.1 : ℚ) * (unitDims.width / ((2 : ℤ) : ℚ))),
       round2 ((((2 : ℤ) - p.2 : ℤ) : ℚ) * (unitDims.height / ((2 : ℤ) : ℚ))))) ∧
    ∀ pt ∈ clusterSmall.populatedTrees,
      pt.positionM =
        (round2 ((pt.positionPx.1 : ℚ) * (unitDims.width / ((2 : ℤ) : ℚ))),
         round2 ((((2 : ℤ) - pt.positionPx.2 : ℤ) : ℚ) *
           (unitDims.height / ((2 : ℤ) : ℚ))))) :=
  ⟨by decide, (detect_metric_points_rounded 2 2 [unitSquare] unitParams
    unitDims rsZero).2 clusterSmall (by decide)⟩

/-- C10 counterexample: with scaleX = 1/3, a metric centroid that were
a whole-pixel multiple of scaleX would become an integer when
multiplied by 3; at this concrete input the reported x centroid is the
rounded value 0.33, and 0.33 * 3 = 0.99 has denominator 100, so the
reported metric centroid is not quantized to whole-pixel multiples of
the scale factor. -/
theorem centroid_quantization_claim_fails :
    ((detect_trees_in_image 3 3 [threeSquare] thirdParams thirdDims
      rsZero).individualTrees.any (fun t =>
        decide ((t.centroidM.1 * 3).den ≠ 1))) = true := by decide

/-- C10 as amended: every reported centroidPx is the truncation toward
zero of the moment ratios M10/M00 and M01/M00 of its polygon, and
centroidM is the two-decimal rounding of the metric conversion applied
to these truncated integers; the reported metric centroids are
therefore quantized to roundings of whole-pixel multiples of the scale
factors, not to the multiples themselves. -/
theorem detect_centroid_truncated (width height : ℤ)
    (contours : List (List (ℤ × ℤ))) (params : DetectionParams)
    (rd : RealDimensions) (s : RandState) :
    (∀ t ∈ (detect_trees_in_image width height contours params rd
        s).individualTrees,
      t.centroidPx = (truncQ ((contourMoments t.polygonPx).m10 /
          (contourMoments t.polygonPx).m00),
        truncQ ((contourMoments t.polygonPx).m01 /
          (contourMoments t.polygonPx).m00)) ∧
      t.centroidM = (round2 ((t.centroidPx.1 : ℚ) * (rd.width / (width : ℚ))),
        round2 (((height - t.centroidPx.2 : ℤ) : ℚ) *
          (rd.height / (height : ℚ))))) ∧
    (∀ cl ∈ (detect_trees_in_image width height contours params rd
        s).treeClusters,
      cl.centroidPx = (truncQ ((contourMoments cl.polygonPx).m10 /
          (contourMoments cl.polygonPx).m00),
        truncQ ((contourMoments cl.polygonPx).m01 /
          (contourMoments cl.polygonPx).m00)) ∧
      cl.centroidM = (round2 ((cl.centroidPx.1 : ℚ) * (rd.width / (width : ℚ))),
        round2 (((height - cl.centroidPx.2 : ℤ) : ℚ) *
          (rd.height / (height : ℚ))))) := by
  obtain ⟨hi, hc⟩ := detect_lists_def width height contours params rd s
  rw [hi, hc]
  exact detectLoop_forall params (rd.width / (width : ℚ))
    (rd.height / (height : ℚ)) height
    (mathPi * (params.min_diameter / 2) ^ 2 /
      ((rd.width / (width : ℚ)) * (rd.height / (height : ℚ))))
    (mathPi * (params.cluster_threshold / 2) ^ 2)
    (fun t =>
      t.centroidPx = (truncQ ((contourMoments t.polygonPx).m10 /
          (contourMoments t.polygonPx).m00),
        truncQ ((contourMoments t.polygonPx).m01 /
          (contourMoments t.polygonPx).m00)) ∧
      t.centroidM = (round2 ((t.centroidPx.1 : ℚ) * (rd.width / (width : ℚ))),
        round2 (((height - t.centroidPx.2 : ℤ) : ℚ) *
          (rd.height / (height : ℚ)))))
    (fun cl =>
      cl.centroidPx = (truncQ ((contourMoments cl.polygonPx).m10 /
          (contourMoments cl.polygonPx).m00),
        truncQ ((contourMoments cl.polygonPx).m01 /
          (contourMoments cl.polygonPx).m00)) ∧
      cl.centroidM = (round2 ((cl.centroidPx.1 : ℚ) * (rd.width / (width : ℚ))),
        round2 (((height - cl.centroidPx.2 : ℤ) : ℚ) *
          (rd.height / (height : ℚ)))))
    (fun c s t h => by
      obtain ⟨hpoly, _, _, hcpx, hcm, _⟩ :=
        processContour_inl _ _ _ _ _ _ _ _ _ h
      rw [hpoly]
      exact ⟨hcpx, hcm⟩)
    (fun c s cl h => by
      obtain ⟨hpoly, _, _, hcpx, hcm, _⟩ :=
        processContour_inr _ _ _ _ _ _ _ _ _ h
      rw [hpoly]
      exact ⟨hcpx, hcm⟩)
    contours s

/-- C10 witness: the amended centroid theorem applied to the concrete
individual tree of the one-third-scale scenario. -/
theorem detect_centroid_truncated_witness :
    treeThird ∈ (detect_trees_in_image 3 3 [threeSquare] thirdParams
      thirdDims rsZero).individualTrees ∧
    (treeThird.centroidPx = (truncQ ((contourMoments treeThird.polygonPx).m10 /
        (contourMoments treeThird.polygonPx).m00),
      truncQ ((contourMoments treeThird.polygonPx).m01 /
        (contourMoments treeThird.polygonPx).m00)) ∧
    treeThird.centroidM =
      (round2 ((treeThird.centroidPx.1 : ℚ) * (thirdDims.width / ((3 : ℤ) : ℚ))),
       round2 ((((3 : ℤ) - treeThird.centroidPx.2 : ℤ) : ℚ) *
         (thirdDims.height / ((3 : ℤ) : ℚ))))) :=
  ⟨by decide, (detect_centroid_truncated 3 3 [threeSquare] thirdParams
    thirdDims rsZero).1 treeThird (by decide)⟩

end TreeDetect
